import Mathlib

/-!
Verification development for the HLTV team-matches → iCal feed service
(`src/index.js`).  Text is modelled as `List Char`; JavaScript string
operations used by the source (single-character `String.replace`, `trim`,
`parseInt`, `Number`, the `/\s+vs\s+$/` replace and the `/\/matches\/(\d+)\//`
match) are embedded explicitly.  Machine numbers are `Int`/`Nat`; a JS
`NaN`-valued time is `Option.none`.
-/

namespace Hltvical

/-- Text is modelled as a list of characters. -/
abbrev Str := List Char

/-- JS whitespace class `\s` (restricted to the ASCII whitespace characters,
which are the only ones occurring in this pipeline). -/
def isWs (c : Char) : Bool :=
  c = ' ' || c = '\t' || c = '\n' || c = '\r' || c = '\x0b' || c = '\x0c'

/-- JS `String.prototype.trim`: strip leading and trailing whitespace. -/
def jsTrim (l : Str) : Str :=
  ((l.dropWhile isWs).reverse.dropWhile isWs).reverse

/-- Value of a non-empty digit string. -/
def digitsVal (ds : Str) : Nat :=
  ds.foldl (fun a c => a * 10 + (c.toNat - 48)) 0

/-- JS `parseInt(x, 10)` on an optional string (`none` = the parameter is
absent, i.e. `parseInt(undefined, 10)` which yields `NaN`).  Result `none`
models `NaN`.  Skips leading whitespace, reads an optional sign and the
longest leading digit run. -/
def jsParseInt (q : Option Str) : Option Int :=
  match q with
  | none => none
  | some l =>
    let t := l.dropWhile isWs
    let signAndRest : Int × Str :=
      match t with
      | '+' :: r => (1, r)
      | '-' :: r => (-1, r)
      | r => (1, r)
    let ds := signAndRest.2.takeWhile Char.isDigit
    if ds = [] then none else some (signAndRest.1 * digitsVal ds)

/-- JS `Number(x)` on a string, restricted to (signed) integer literals,
the only numeric form the `data-unix` attribute carries.  `Number` of an empty
or all-blank string is `0`; a string that is not entirely an integer literal is
`NaN`, modelled as `none`. -/
def jsNumber (l : Str) : Option Int :=
  let t := jsTrim l
  if t = [] then some 0
  else
    let signAndRest : Int × Str :=
      match t with
      | '+' :: r => (1, r)
      | '-' :: r => (-1, r)
      | r => (1, r)
    if signAndRest.2 ≠ [] ∧ signAndRest.2.all Char.isDigit then
      some (signAndRest.1 * digitsVal signAndRest.2)
    else none

/-- Decimal rendering of a JS number that may be `NaN`:
`String(NaN) = "NaN"`, otherwise the usual decimal form. -/
def jsNumRepr (o : Option Int) : Str :=
  match o with
  | some t => (toString t).data
  | none => "NaN".data

/-! ### ICS encoder: `icsEscape` (src/index.js lines 71–78) -/

/-- JS `str.replace(/c/g, r)` for a single-character pattern `c`. -/
def replaceChar (c : Char) (r : Str) (l : Str) : Str :=
  l.flatMap (fun x => if x = c then r else [x])

/-- Function `icsEscape` (src/index.js:71–78): backslash → `\\`, newline → literal
`\n`, carriage return stripped, comma → `\,`, semicolon → `\;`, applied in
that order. -/
def icsEscape (l : Str) : Str :=
  replaceChar ';' ['\\', ';']
    (replaceChar ',' ['\\', ',']
      (replaceChar '\r' []
        (replaceChar '\n' ['\\', 'n']
          (replaceChar '\\' ['\\', '\\'] l))))

/-- Per-character effect of the composed `icsEscape` replacement chain. -/
def escChar (x : Char) : Str :=
  if x = '\\' then ['\\', '\\']
  else if x = '\n' then ['\\', 'n']
  else if x = '\r' then []
  else if x = ',' then ['\\', ',']
  else if x = ';' then ['\\', ';']
  else [x]

/-- Modelled from the spec: the spec'"inverse unescape".data for ICS text
(RFC 5545 text decoding), which the repository itself does not contain:
`\\` → backslash, `\n` → newline, `\,` → comma, `\;` → semicolon. -/
def unescChar (c : Char) : Char :=
  if c = 'n' then '\n' else c

/-- Modelled from the spec: ICS text unescaping, the inverse referenced by
the spec'"escaping idempotence on decode".data property. -/
def icsUnescape : Str → Str
  | [] => []
  | c :: rest =>
    if c = '\\' then
      match rest with
      | [] => [c]
      | d :: rest2 => unescChar d :: icsUnescape rest2
    else c :: icsUnescape rest

/-! ### ICS encoder: `foldIcsLine` (src/index.js lines 80–90) -/

/-- JS array join with the CRLF separator. -/
def joinCRLF : List Str → Str
  | [] => []
  | [x] => x
  | x :: y :: rest => x ++ '\r' :: '\n' :: joinCRLF (y :: rest)

/-- JS array join with the newline separator. -/
def joinNL : List Str → Str
  | [] => []
  | [x] => x
  | x :: y :: rest => x ++ '\n' :: joinNL (y :: rest)

/-- Split a document into its physical lines at each CRLF. -/
def splitCRLF : Str → List Str
  | [] => [[]]
  | '\r' :: '\n' :: rest => [] :: splitCRLF rest
  | c :: rest =>
    match splitCRLF rest with
    | [] => [[c]]
    | line :: ls => (c :: line) :: ls

/-- The physical-line pieces produced by the while loop of `foldIcsLine`: while
the line exceeds 75 characters, push the first 75 and continue with a
space prepended to the remainder. -/
def foldParts (line : Str) : List Str :=
  if line.length ≤ 75 then [line]
  else line.take 75 :: foldParts (' ' :: line.drop 75)
termination_by line.length
decreasing_by
  simp only [List.length_cons, List.length_drop]
  omega

/-- Function `foldIcsLine` (src/index.js:80–90): the parts joined by CRLF. -/
def foldIcsLine (line : Str) : Str :=
  joinCRLF (foldParts line)

/-- Undo folding: keep the first piece, drop the leading space inserted on
every continuation piece, and concatenate. -/
def unfoldParts : List Str → Str
  | [] => []
  | p :: rest => p ++ (rest.flatMap (fun q => q.drop 1))

/-! ### ICS encoder: `fmtIcsDateUTC` and `buildICS` (src/index.js 66–69, 92–121) -/

/-- Decimal digits of a natural number. -/
def natRepr (n : Nat) : Str := (toString n).data

/-- Decimal rendering of an integer (as JS template interpolation of a
number produces, for integral values). -/
def intRepr (t : Int) : Str := (toString t).data

/-- Helper `pad` in `fmtIcsDateUTC`: render and left-pad to two digits with zero. -/
def pad2 (n : Nat) : Str :=
  if n < 10 then '0' :: natRepr n else natRepr n

/-- Proleptic-Gregorian civil date from days since the Unix epoch (the
computation the JS `Date` getters `getUTCFullYear/Month/Date` perform). -/
def civilFromDays (z0 : Int) : Int × Nat × Nat :=
  let z := z0 + 719468
  let era := z.ediv 146097
  let doe := (z - era * 146097).toNat
  let yoe := (doe - doe / 1460 + doe / 36524 - doe / 146096) / 365
  let y := (yoe : Int) + era * 400
  let doy := doe - (365 * yoe + yoe / 4 - yoe / 100)
  let mp := (5 * doy + 2) / 153
  let d := doy - (153 * mp + 2) / 5 + 1
  let m := if mp < 10 then mp + 3 else mp - 9
  (if m ≤ 2 then y + 1 else y, m, d)

/-- Function `fmtIcsDateUTC` (src/index.js:66–69) on a valid epoch-millisecond
instant: `YYYYMMDDTHHMMSSZ`, month/day/hour/minute/second zero-padded to
two digits, year unpadded. -/
def fmtIcsDateUTC (t : Int) : Str :=
  let days := t.ediv 86400000
  let ms := (t.emod 86400000).toNat
  let c := civilFromDays days
  intRepr c.1 ++ pad2 c.2.1 ++ pad2 c.2.2 ++ ['T'] ++
    pad2 (ms / 3600000) ++ pad2 (ms / 60000 % 60) ++ pad2 (ms / 1000 % 60) ++ ['Z']

/-- Result of `fmtIcsDateUTC` applied to a possibly invalid `Date` (`none` = invalid,
all getters return `NaN`, and `pad(NaN)` is the three-character `"NaN"`). -/
def jsFmtIcsDate (o : Option Int) : Str :=
  match o with
  | some t => fmtIcsDateUTC t
  | none => "NaNNaNNaNTNaNNaNNaNZ".data

/-- A match record as pushed by `parseMatches` (src/index.js:189).
`start` is the parsed `data-unix` instant; `none` models an invalid
`Date` (`new Date(NaN)`). -/
structure MatchEvent where
  uid : Str
  start : Option Int
  team1 : Str
  team2 : Str
  summary : Str
  description : Str
  url : Option Str
deriving DecidableEq

/-- An event as assembled by the feed route: a `MatchEvent` plus the
computed `end` field (`{...e, end: ...}`, src/index.js:211).  `endTime`
models `end.getTime()`; `none` stands for an absent or invalid end, which
after the route's filter cannot reach `buildICS`. -/
structure FeedEvent extends MatchEvent where
  endTime : Option Int
deriving DecidableEq

/-- JS `a || b` on strings: `b` when `a` is empty. -/
def jsOrStr (a b : Str) : Str := if a = [] then b else a

/-- The `lines` array of `buildICS` (src/index.js:92–119) before joining.
The `prodId` parameter is never overridden by any caller, so its default
value is inlined.  `now` is the clock instant read for the single shared
`DTSTAMP`. -/
def buildICSLines (events : List FeedEvent) (calName : Str) (now : Int) : List Str :=
  let dtstamp := fmtIcsDateUTC now
  ("BEGIN:VCALENDAR".data ::
   "VERSION:2.0".data ::
   ("PRODID:".data ++ "-//hltv-ical//EN".data) ::
   "CALSCALE:GREGORIAN".data ::
   "METHOD:PUBLISH".data ::
   ("NAME:".data ++ icsEscape calName) ::
   ("X-WR-CALNAME:".data ++ icsEscape calName) :: []) ++
  events.flatMap (fun ev =>
    ("BEGIN:VEVENT".data ::
     foldIcsLine ("UID:".data ++ icsEscape ev.uid) ::
     ("DTSTAMP:".data ++ dtstamp) ::
     ("DTSTART:".data ++ jsFmtIcsDate ev.start) :: []) ++
    (match ev.endTime with
     | some e => ["DTEND:".data ++ fmtIcsDateUTC e]
     | none => []) ++
    (if ev.summary = [] then []
     else [foldIcsLine ("SUMMARY:".data ++ icsEscape ev.summary)]) ++
    (if ev.description = [] then []
     else [foldIcsLine ("DESCRIPTION:".data ++ icsEscape ev.description)]) ++
    (match ev.url with
     | some u => if u = [] then [] else [foldIcsLine ("URL:".data ++ icsEscape u)]
     | none => []) ++
    ("BEGIN:VALARM".data ::
     "ACTION:DISPLAY".data ::
     foldIcsLine ("DESCRIPTION:".data ++ icsEscape (jsOrStr ev.summary ("HLTV Match".data))) ::
     "TRIGGER:-PT15M".data ::
     "END:VALARM".data ::
     "END:VEVENT".data :: [])) ++
  ["END:VCALENDAR".data]

/-- Function `buildICS` (src/index.js:92–121): the lines joined by CRLF. -/
def buildICS (events : List FeedEvent) (calName : Str) (now : Int) : Str :=
  joinCRLF (buildICSLines events calName now)

/-! ### Match extractor: `parseMatches` (src/index.js 158–195)

The cheerio DOM plumbing is modelled structurally, following the
document shape the selectors traverse: a document is the list of
`table.match-table` elements, each a list of its direct `thead`/`tbody`
children in order, a `tbody` carrying its `tr.team-row` rows.  Each row
carries exactly the four values the selectors read from it. -/

/-- The data read from one `tr.team-row`:
`dataUnix` = the `data-unix` attribute of the first `td.date-cell
span[data-unix]` (`none` when no such span exists);
`team1Text`/`team2Text` = the text of the first `.team-center-cell
a.team-name.team-1` / `.team-2` (empty when absent);
`matchHref` = the `href` of the `td.matchpage-button-cell
a.matchpage-button` (`none` when absent). -/
structure TeamRow where
  dataUnix : Option Str
  team1Text : Str
  team2Text : Str
  matchHref : Option Str
deriving DecidableEq

/-- A direct child of a match table: a `thead` (with the text of the first
`tr.event-header-cell a` inside it, empty if there is none) or a `tbody`
with its team rows. -/
inductive MatchGroup where
  | thead (anchorText : Str)
  | tbody (rows : List TeamRow)
deriving DecidableEq

/-- An HTML document, at the granularity `parseMatches` consumes it. -/
abbrev Doc := List (List MatchGroup)

/-- The JS regex `/\/matches\/(\d+)\//.exec`: the capture of the first
position where `/matches/` is followed by a nonempty digit run and a
slash.  (`\d+` is greedy and the character after it must be `/`, which no
digit is, so backtracking inside the digit run never helps.) -/
def findMatchId : Str → Option Str
  | [] => none
  | l@(_ :: t) =>
    if l.take 9 = "/matches/".data then
      let rest := l.drop 9
      let d := rest.takeWhile Char.isDigit
      if d ≠ [] ∧ (rest.drop d.length).head? = some '/' then some d
      else findMatchId t
    else findMatchId t

/-- Expression `matchRelUrl && matchRelUrl.match(...)`: the match id, guarded by
JS truthiness of the href (`undefined` and the empty string are falsy). -/
def hrefMatchId (href : Option Str) : Option Str :=
  match href with
  | some h => if h = [] then none else findMatchId h
  | none => none

/-- Model of `new URL(rel, base).toString()` against the hltv origin, for the URL forms
that occur on the page (absolute URLs and root-relative paths). -/
def resolveHltvUrl (rel : Str) : Str :=
  if rel.take 7 = "http://".data ∨ rel.take 8 = "https://".data then rel
  else if rel.head? = some '/' then "https://www.hltv.org".data ++ rel
  else "https://www.hltv.org/".data ++ rel

/-- One step of the regex `/\s+vs\s+$/`: does the whole remainder match
`\s+vs\s+` (nonempty whitespace, literally `vs`, nonempty whitespace to
the end of the string)? -/
def vsTail (l : Str) : Bool :=
  match l.dropWhile isWs with
  | c1 :: c2 :: w2 => (c1 == 'v') && (c2 == 's') && !w2.isEmpty && w2.all isWs
  | _ => false

/-- The regex `/\s+vs\s+$/` matches `r` starting at its first character:
the leading whitespace run is nonempty and the rest is `vs` followed by
whitespace up to the end. -/
def matchVsEnd (r : Str) : Bool :=
  !(r.takeWhile isWs).isEmpty && vsTail r

/-- The replace of regex `\s+vs\s+$` by the empty string: scan left to right for the first
position whose whole remainder matches, and delete from there. -/
def stripVsEnd : Str → Str
  | [] => []
  | c :: t => if matchVsEnd (c :: t) then [] else c :: stripVsEnd t

/-- The per-row body of `parseMatches` (src/index.js:172–189): `none` when
the row is skipped (`if (!unixStr) return`), otherwise the pushed record.
`currentEventName` is the header-group state, `teamLabel` the
`teamLabelForSummary` parameter. -/
def rowEvent (currentEventName teamLabel : Str) (row : TeamRow) : Option MatchEvent :=
  match row.dataUnix with
  | none => none
  | some unixStr =>
    if unixStr = [] then none
    else
      let start := jsNumber unixStr
      let team1 := jsTrim row.team1Text
      let team2 := jsTrim row.team2Text
      let matchUrl : Option Str :=
        match row.matchHref with
        | some h => if h = [] then none else some (resolveHltvUrl h)
        | none => none
      let uid : Str :=
        match hrefMatchId row.matchHref with
        | some d => "hltv-match-".data ++ d
        | none => "hltv-".data ++ jsNumRepr start
      let summary : Str :=
        jsTrim (stripVsEnd ((jsOrStr team1 teamLabel) ++ " vs ".data ++ team2)) ++
          (if currentEventName = [] then [] else " — ".data ++ currentEventName)
      let descriptionParts : List Str :=
        [if currentEventName = [] then [] else "Event: ".data ++ currentEventName,
         if team1 ≠ [] ∧ team2 ≠ [] then "Match: ".data ++ team1 ++ " vs ".data ++ team2 else [],
         match matchUrl with
         | some u => "HLTV: ".data ++ u
         | none => []]
      let description := joinNL (descriptionParts.filter (fun p => p ≠ []))
      some { uid := uid, start := start, team1 := team1, team2 := team2,
             summary := summary, description := description, url := matchUrl }

/-- The scan over a table's `thead`/`tbody` children with the
`currentEventName` state (src/index.js:164–192). -/
def parseGroups (teamLabel currentEventName : Str) : List MatchGroup → List MatchEvent
  | [] => []
  | MatchGroup.thead t :: rest =>
    let name := jsTrim t
    parseGroups teamLabel (if name ≠ [] then name else currentEventName) rest
  | MatchGroup.tbody rows :: rest =>
    rows.filterMap (rowEvent currentEventName teamLabel) ++
      parseGroups teamLabel currentEventName rest

/-- Function `parseMatches` (src/index.js:158–195): scan each match table, with the
event-name state reset per table. -/
def parseMatches (doc : Doc) (teamLabelForSummary : Str) : List MatchEvent :=
  doc.flatMap (parseGroups teamLabelForSummary [])

/-! ### Fetch gateway: `fetchWithCache` (src/index.js 123–156) -/

/-- Constant `CACHE_TTL_MS` (src/index.js:19): 60 minutes. -/
def cacheTTL : Int := 60 * 60 * 1000

/-- A cache entry `{ ts, body }` (src/index.js:154).  The body type is kept
abstract: the gateway never inspects it. -/
structure CacheEntry (α : Type) where
  ts : Int
  body : α
deriving DecidableEq

/-- The in-memory `CACHE` map (src/index.js:18), as an association list in
insertion order. -/
abbrev Cache (α : Type) := List (Str × CacheEntry α)

/-- JS `Map.get` followed by the freshness test (src/index.js:124–126):
the entry, provided it exists and `now - cached.ts < CACHE_TTL_MS`. -/
def freshHit (cache : Cache α) (now : Int) (url : Str) : Option (CacheEntry α) :=
  match (cache.find? (fun p => p.1 == url)).map (fun p => p.2) with
  | some e => if now - e.ts < cacheTTL then some e else none
  | none => none

/-- JS `Map.set` (src/index.js:154): replace in place if the key exists,
otherwise append. -/
def cacheSet (cache : Cache α) (url : Str) (e : CacheEntry α) : Cache α :=
  if cache.any (fun p => p.1 == url) then
    cache.map (fun p => if p.1 == url then (url, e) else p)
  else cache ++ [(url, e)]

/-- The outbound request `fetchWithCache` issues on a cache miss
(src/index.js:128–144): a POST of a `request.get` command to the
FlareSolverr control endpoint, with only a JSON content-type header. -/
structure FetchRequest where
  target : Str
  method : Str
  headers : List (Str × Str)
  bodyCmd : Str
  bodyUrl : Str
  bodySession : Option Str
  maxTimeout : Nat
deriving DecidableEq

/-- The request built from the configured FlareSolverr base URL, the
optional session token, and the page URL (src/index.js:128–144). -/
def fetchRequestFor (flaresolverrUrl : Str) (session : Option Str) (url : Str) :
    FetchRequest :=
  { target := flaresolverrUrl ++ "/v1".data
    method := "POST".data
    headers := [("Content-Type".data, "application/json".data)]
    bodyCmd := "request.get".data
    bodyUrl := url
    bodySession := session
    maxTimeout := 60000 }

/-- What the gateway observes of the FlareSolverr response: the HTTP
`ok`/`status`/`statusText` of the POST, and the JSON envelope's `status`,
`message` and `solution.response` fields. -/
structure BypassResponse (α : Type) where
  resOk : Bool
  status : Nat
  statusText : Str
  dataStatus : Str
  dataMessage : Option Str
  solutionResponse : α
deriving DecidableEq

/-- Whether the gateway treats the response as a failure: non-success HTTP
status (`!res.ok`) or a non-`"ok"` envelope status. -/
def bypassFailed (res : BypassResponse α) : Bool :=
  !res.resOk || res.dataStatus != "ok".data

/-- Fallback on `data.message` (src/index.js:150): the envelope
message, with the default substituted for an absent or empty one. -/
def jsMessageOf (m : Option Str) : Str :=
  match m with
  | some x => if x = [] then "Unknown error".data else x
  | none => "Unknown error".data

/-- The error message thrown for a failing response
(src/index.js:146 and 149–151). -/
def fetchErrorMsg (res : BypassResponse α) : Str :=
  if !res.resOk then
    "FlareSolverr request failed: ".data ++ natRepr res.status ++ [' '] ++ res.statusText
  else
    "FlareSolverr error: ".data ++ jsMessageOf res.dataMessage

/-- Function `fetchWithCache` (src/index.js:123–156).  The network is an oracle
`respond` from the issued request to the observed response; a thrown
`Error` is `Except.error` carrying its message; the returned pair is the
body together with the cache state after the call. -/
def fetchWithCache (flaresolverrUrl : Str) (session : Option Str)
    (respond : FetchRequest → BypassResponse α)
    (cache : Cache α) (now : Int) (url : Str) : Except Str (α × Cache α) :=
  match freshHit cache now url with
  | some cached => Except.ok (cached.body, cache)
  | none =>
    let res := respond (fetchRequestFor flaresolverrUrl session url)
    if !res.resOk then
      Except.error (fetchErrorMsg res)
    else if res.dataStatus ≠ "ok".data then
      Except.error (fetchErrorMsg res)
    else
      Except.ok (res.solutionResponse,
        cacheSet cache url { ts := now, body := res.solutionResponse })

/-! ### Feed route (src/index.js 201–228) -/

/-- The route's duration parse and clamp (src/index.js:204):
`Math.max(1, Math.min(24 * 60, parseInt(req.query.duration, 10) || 120))`.
`parseInt(...) || 120` substitutes 120 for `NaN` and for `0` (both falsy). -/
def effectiveMinutes (durationParam : Option Str) : Int :=
  max 1 (min (24 * 60)
    (match jsParseInt durationParam with
     | none => 120
     | some v => if v = 0 then 120 else v))

/-- The spec's clamp formula as literally claimed: `max(1, min(1440, v))`
where `v` is the parsed integer, with 120 substituted only when the
parameter is absent or non-numeric. -/
def specClaimedMinutes (durationParam : Option Str) : Int :=
  max 1 (min 1440
    (match jsParseInt durationParam with
     | none => 120
     | some v => v))

/-- The spec formula amended: 120 is substituted when the parameter is
absent, non-numeric, or parses to `0`. -/
def specAmendedMinutes (durationParam : Option Str) : Int :=
  max 1 (min 1440
    (match jsParseInt durationParam with
     | none => 120
     | some v => if v = 0 then 120 else v))

/-- The map step `(e) => ({ ...e, end: new Date(e.start.getTime() +
minutes * 60 * 1000) })` (src/index.js:211); an invalid start propagates
to an invalid end. -/
def withEnd (records : List MatchEvent) (minutes : Int) : List FeedEvent :=
  records.map (fun e =>
    { toMatchEvent := e, endTime := e.start.map (fun t => t + minutes * 60 * 1000) })

/-- JS `d.getTime() >= bound` for a possibly invalid date: any comparison
with `NaN` is false. -/
def jsGeOpt (o : Option Int) (bound : Int) : Bool :=
  match o with
  | some t => bound ≤ t
  | none => false

/-- The filter (src/index.js:212).  `e.start && e.end &&` guards are JS
`Date` objects and a `Date` is always truthy (even an invalid one), so the
filter reduces to the end-time comparison. -/
def keepRecent (now : Int) (l : List FeedEvent) : List FeedEvent :=
  l.filter (fun e => jsGeOpt e.endTime (now - 5 * 60 * 1000))

/-- The sort key of `(a, b) => a.start - b.start`; every event surviving
the filter has a numeric start, so the default is never compared. -/
def startKey (e : FeedEvent) : Int := e.start.getD 0

/-- Stable insertion into a list sorted by `startKey` (a later element is
placed after all existing elements with a key not greater than its own),
the behaviour of the stable JS `Array.prototype.sort` under the numeric
comparator. -/
def insertByStart (x : FeedEvent) : List FeedEvent → List FeedEvent
  | [] => [x]
  | y :: t => if startKey y ≤ startKey x then y :: insertByStart x t else x :: y :: t

/-- The call `.sort((a, b) => a.start - b.start)` (src/index.js:213) as a stable
insertion sort. -/
def sortByStart (l : List FeedEvent) : List FeedEvent :=
  l.foldl (fun acc x => insertByStart x acc) []

/-- The `upcoming` pipeline of the route (src/index.js:210–213):
add ends, drop events ended more than five minutes ago, sort by start. -/
def feedEvents (records : List MatchEvent) (minutes now : Int) : List FeedEvent :=
  sortByStart (keepRecent now (withEnd records minutes))

/-- JS `encodeURIComponent`: unreserved characters kept, anything else
percent-encoded per UTF-8 byte. -/
def isUriUnreserved (c : Char) : Bool :=
  c.isAlphanum || c = '-' || c = '_' || c = '.' || c = '!' || c = '~' ||
    c = '*' || c = '\'' || c = '(' || c = ')'

/-- Uppercase hex digit. -/
def hexDigit (n : Nat) : Char :=
  if n < 10 then Char.ofNat (48 + n) else Char.ofNat (55 + n)

/-- UTF-8 bytes of a character. -/
def utf8Bytes (c : Char) : List Nat :=
  let n := c.toNat
  if n < 128 then [n]
  else if n < 2048 then [192 + n / 64, 128 + n % 64]
  else if n < 65536 then [224 + n / 4096, 128 + n / 64 % 64, 128 + n % 64]
  else [240 + n / 262144, 128 + n / 4096 % 64, 128 + n / 64 % 64, 128 + n % 64]

def encodeURIComponent (l : Str) : Str :=
  l.flatMap (fun c =>
    if isUriUnreserved c then [c]
    else (utf8Bytes c).flatMap (fun b => ['%', hexDigit (b / 16), hexDigit (b % 16)]))

/-- The canonical team page URL built by the route (src/index.js:206). -/
def teamUrl (id teamSlug : Str) : Str :=
  "https://www.hltv.org/team/".data ++ encodeURIComponent id ++ ['/'] ++
    encodeURIComponent teamSlug ++ "#tab-matchesBox".data

/-- Model of `new URL(u).pathname` for an `http(s)` URL without userinfo: the part
after the host, up to any `?` or `#`. -/
def urlPathname (u : Str) : Str :=
  let afterScheme :=
    if u.take 8 = "https://".data then u.drop 8
    else if u.take 7 = "http://".data then u.drop 7
    else u
  (afterScheme.dropWhile (fun c => c ≠ '/')).takeWhile (fun c => c ≠ '#' ∧ c ≠ '?')

/-- Split a path on `/`. -/
def splitSlash : Str → List Str
  | [] => [[]]
  | '/' :: rest => [] :: splitSlash rest
  | c :: rest =>
    match splitSlash rest with
    | [] => [[c]]
    | seg :: segs => (c :: seg) :: segs

/-- The calendar display name derivation (src/index.js:214–219):
slash-splitting the pathname, filtering empties, taking index 2 with an empty
default, under the `HLTV — ` prefix.  (The
`try`/`catch` never fires: the constructed URL always parses.) -/
def calNameOf (url : Str) : Str :=
  let slugName := (((splitSlash (urlPathname url)).filter (fun p => p ≠ [])).drop 2).headD []
  "HLTV — ".data ++ slugName

/-- Declaration `const teamSlug` (src/index.js:205, slug with default): the slug route
parameter with the placeholder substituted when it is absent or empty. -/
def routeSlug (slug : Option Str) : Str :=
  match slug with
  | some sl => if sl = [] then "team".data else sl
  | none => "team".data

/-- The body of the feed route's HTTP answer. -/
inductive FeedBody where
  | ics (doc : Str)
  | json (error : Str)
deriving DecidableEq

/-- The team feed route handler (src/index.js:201–228), with the ambient
state (cache) and clock passed explicitly.  Returns the HTTP status, the
body, and the cache state after the request.  `slug` is `none` for the
`/team/:id.ics` route pattern. -/
def handleTeamFeed (flaresolverrUrl : Str) (session : Option Str)
    (respond : FetchRequest → BypassResponse Doc)
    (cache : Cache Doc) (id : Str) (slug : Option Str)
    (durationParam : Option Str) (now : Int) : Nat × FeedBody × Cache Doc :=
  let minutes := effectiveMinutes durationParam
  let url := teamUrl id (routeSlug slug)
  match fetchWithCache flaresolverrUrl session respond cache now url with
  | Except.error e => (502, FeedBody.json e, cache)
  | Except.ok (html, cache') =>
    let eventsRaw := parseMatches html []
    let upcoming := feedEvents eventsRaw minutes now
    let calName := calNameOf url
    (200, FeedBody.ics (buildICS upcoming calName now), cache')

/-! ### C5: escape/unescape round trip -/

/-- A string containing a backslash, comma, semicolon, newline — and a
carriage return. -/
def cexC5 : Str := ['\\', ',', ';', '\n', '\r']

/-- Concrete instance for the round-trip theorem. -/
def wC5 : Str := ['a', '\\', 'b', ',', ';', '\n']

/-- A row whose `data-unix` value is non-numeric text. -/
def cexRowC8 : TeamRow :=
  { dataUnix := some ("abc".data), team1Text := [], team2Text := [], matchHref := none }

/-! ### C1: event uid scheme -/

/-- The end-to-end scenario row: one header group `"Major Final"`, one row
with `data-unix="1700000000000"`, teams Alpha/Beta, detail link
`/matches/12345/alpha-vs-beta`. -/
def scenarioRow : TeamRow :=
  { dataUnix := some ("1700000000000".data)
    team1Text := "Alpha".data
    team2Text := "Beta".data
    matchHref := some ("/matches/12345/alpha-vs-beta".data) }

/-- The scenario document. -/
def scenarioDoc : Doc :=
  [[MatchGroup.thead ("Major Final".data), MatchGroup.tbody [scenarioRow]]]

/-- The record the scenario row produces. -/
def scenarioEvent : MatchEvent :=
  { uid := "hltv-match-12345".data
    start := some 1700000000000
    team1 := "Alpha".data
    team2 := "Beta".data
    summary := "Alpha vs Beta — Major Final".data
    description :=
      "Event: Major Final\nMatch: Alpha vs Beta\nHLTV: https://www.hltv.org/matches/12345/alpha-vs-beta".data
    url := some ("https://www.hltv.org/matches/12345/alpha-vs-beta".data) }

/-- A one-entry cache holding body `42` fetched at instant 0. -/
def cacheW : Cache Nat := [("u".data, { ts := 0, body := 42 })]

/-- A network oracle that always reports success. -/
def respondOkW : FetchRequest → BypassResponse Nat :=
  fun _ =>
    { resOk := true, status := 200, statusText := "OK".data
      dataStatus := "ok".data, dataMessage := none, solutionResponse := 7 }

/-- A network oracle that always reports an HTTP 500 from the bypass
endpoint. -/
def respondFailW : FetchRequest → BypassResponse Doc :=
  fun _ =>
    { resOk := false, status := 500, statusText := "Internal Server Error".data
      dataStatus := "".data, dataMessage := none, solutionResponse := [] }

/-- A single record starting at epoch millisecond 1000. -/
def recW : List MatchEvent :=
  [{ uid := "u".data, start := some 1000, team1 := [], team2 := [],
     summary := [], description := [], url := none }]

/-- The feed event the route derives from `recW` under 120-minute
duration. -/
def evW : FeedEvent :=
  { uid := "u".data, start := some 1000, team1 := [], team2 := [],
    summary := [], description := [], url := none,
    endTime := some (1000 + 120 * 60 * 1000) }

/-! ### C6: line folding -/

/-- A 100-character calendar name. -/
def longCalName : Str := List.replicate 100 'a'

/-- An 80-character content line. -/
def longLineW : Str := List.replicate 80 'x'

/-- The separator string `" vs "` inserted between the two team names. -/
def vsSep : Str := [' ', 'v', 's', ' ']

/-- A row whose first team slot is empty. -/
def cexRowC9 : TeamRow :=
  { dataUnix := some ("1700000000000".data), team1Text := [],
    team2Text := "Beta".data, matchHref := none }

/-- A row whose second team slot is whitespace only. -/
def wRowC9 : TeamRow :=
  { dataUnix := some ("1700000000000".data), team1Text := "Alpha".data,
    team2Text := "  ".data, matchHref := none }

/-- The record `wRowC9` produces under event name `EV`. -/
def wEventC9 : MatchEvent :=
  { uid := "hltv-1700000000000".data, start := some 1700000000000,
    team1 := "Alpha".data, team2 := [],
    summary := "Alpha — EV".data, description := "Event: EV".data, url := none }

/-! ## Theorems -/

theorem replaceChar_append (c : Char) (r a b : Str) :
    replaceChar c r (a ++ b) = replaceChar c r a ++ replaceChar c r b := by
  simp [replaceChar]

theorem icsEscape_cons (x : Char) (t : Str) :
    icsEscape (x :: t) = escChar x ++ icsEscape t := by
  rw [show (x :: t) = [x] ++ t from rfl]
  simp only [icsEscape, replaceChar_append]
  congr 1
  by_cases h1 : x = '\\'
  · subst h1; rfl
  by_cases h2 : x = '\n'
  · subst h2; rfl
  by_cases h3 : x = '\r'
  · subst h3; rfl
  by_cases h4 : x = ','
  · subst h4; rfl
  by_cases h5 : x = ';'
  · subst h5; rfl
  simp [replaceChar, escChar, h1, h2, h3, h4, h5]

theorem icsUnescape_cons_ne (c : Char) (r : Str) (h : c ≠ '\\') :
    icsUnescape (c :: r) = c :: icsUnescape r := by
  rw [icsUnescape.eq_def]
  simp [h]

theorem icsUnescape_cons_esc (d : Char) (r : Str) :
    icsUnescape ('\\' :: d :: r) = unescChar d :: icsUnescape r := by
  rw [icsUnescape.eq_def]
  simp

/-- Round trip: escaping then unescaping recovers any text free of carriage
returns (carriage returns are stripped by `icsEscape`, never escaped). -/
theorem icsUnescape_icsEscape (l : Str) (h : '\r' ∉ l) :
    icsUnescape (icsEscape l) = l := by
  induction l with
  | nil => rfl
  | cons x t ih =>
    have hx : x ≠ '\r' := by intro hx; exact h (hx ▸ List.mem_cons_self x t)
    have ht : '\r' ∉ t := fun hm => h (List.mem_cons_of_mem x hm)
    rw [icsEscape_cons]
    by_cases h1 : x = '\\'
    · subst h1
      show icsUnescape ('\\' :: '\\' :: icsEscape t) = '\\' :: t
      rw [icsUnescape_cons_esc, ih ht]; rfl
    by_cases h2 : x = '\n'
    · subst h2
      show icsUnescape ('\\' :: 'n' :: icsEscape t) = '\n' :: t
      rw [icsUnescape_cons_esc, ih ht]; rfl
    by_cases h4 : x = ','
    · subst h4
      show icsUnescape ('\\' :: ',' :: icsEscape t) = ',' :: t
      rw [icsUnescape_cons_esc, ih ht]
      simp [unescChar]
    by_cases h5 : x = ';'
    · subst h5
      show icsUnescape ('\\' :: ';' :: icsEscape t) = ';' :: t
      rw [icsUnescape_cons_esc, ih ht]
      simp [unescChar]
    · have : escChar x = [x] := by simp [escChar, h1, h2, hx, h4, h5]
      rw [this]
      show icsUnescape (x :: icsEscape t) = x :: t
      rw [icsUnescape_cons_ne x _ h1, ih ht]

theorem foldParts_short (line : Str) (h : line.length ≤ 75) :
    foldParts line = [line] := by
  rw [foldParts]
  simp [h]

theorem foldParts_long (line : Str) (h : ¬ line.length ≤ 75) :
    foldParts line = line.take 75 :: foldParts (' ' :: line.drop 75) := by
  rw [foldParts]
  simp [h]

/-- Every physical piece produced by folding is at most 75 characters. -/
theorem foldParts_length_le (line : Str) :
    ∀ p ∈ foldParts line, p.length ≤ 75 := by
  by_cases h : line.length ≤ 75
  · rw [foldParts_short line h]
    intro p hp
    rw [List.mem_singleton] at hp
    exact hp ▸ h
  · rw [foldParts_long line h]
    intro p hp
    rcases List.mem_cons.mp hp with h1 | h2
    · subst h1
      simp [List.length_take]
    · exact foldParts_length_le (' ' :: line.drop 75) p h2
termination_by line.length
decreasing_by
  simp only [List.length_cons, List.length_drop]
  omega

/-- Unfolding the folded pieces reconstructs the original content line. -/
theorem unfoldParts_foldParts (line : Str) :
    unfoldParts (foldParts line) = line := by
  by_cases h : line.length ≤ 75
  · rw [foldParts_short line h]
    simp [unfoldParts]
  · rw [foldParts_long line h]
    have ih := unfoldParts_foldParts (' ' :: line.drop 75)
    rcases hrec : foldParts (' ' :: line.drop 75) with _ | ⟨p0, rest⟩
    · rw [hrec] at ih
      simp [unfoldParts] at ih
    · rw [hrec] at ih
      have hp0 : p0.head? = some ' ' := by
        by_cases h2 : (' ' :: line.drop 75).length ≤ 75
        · rw [foldParts_short _ h2] at hrec
          injection hrec with e1 e2
          subst e1; rfl
        · rw [foldParts_long _ h2] at hrec
          injection hrec with e1 e2
          subst e1; rfl
      show (line.take 75 ++ ((p0 :: rest).flatMap (fun q => q.drop 1))) = line
      rcases p0 with _ | ⟨c0, p0t⟩
      · simp at hp0
      · injection hp0 with hc0
        subst hc0
        simp only [unfoldParts] at ih
        have ih2 : p0t ++ rest.flatMap (fun q => q.drop 1) = line.drop 75 := by
          have := ih
          simp only [List.cons_append] at this
          exact List.tail_eq_of_cons_eq this
        calc line.take 75 ++ (p0t ++ rest.flatMap (fun q => q.drop 1))
            = line.take 75 ++ line.drop 75 := by rw [ih2]
          _ = line := List.take_append_drop 75 line
termination_by line.length
decreasing_by
  simp only [List.length_cons, List.length_drop]
  omega

/-- Continuation pieces all start with the inserted space. -/
theorem foldParts_tail_head (line : Str) :
    ∀ p ∈ (foldParts line).tail, p.head? = some ' ' := by
  by_cases h : line.length ≤ 75
  · rw [foldParts_short line h]
    intro p hp
    simp at hp
  · rw [foldParts_long line h]
    intro p hp
    simp only [List.tail_cons] at hp
    have ih := foldParts_tail_head (' ' :: line.drop 75)
    by_cases h2 : (' ' :: line.drop 75).length ≤ 75
    · rw [foldParts_short _ h2] at hp
      rw [List.mem_singleton] at hp
      subst hp; rfl
    · rw [foldParts_long _ h2] at hp
      rcases List.mem_cons.mp hp with h3 | h4
      · subst h3; rfl
      · rw [foldParts_long _ h2] at ih
        simp only [List.tail_cons] at ih
        exact ih p h4
termination_by line.length
decreasing_by
  all_goals simp only [List.length_cons, List.length_drop]
  all_goals omega

/-! ## Claims -/

/-! ### C3: duration clamp -/

/-- C3, counterexample: for `duration=0` the route uses 120 minutes, while
the claimed formula `max(1, min(1440, v))` (120 only for absent or
non-numeric input) yields 1 — `parseInt('0', 10) || 120` substitutes the
default for a parsed `0` as well. -/
theorem C3_counterexample :
    effectiveMinutes (some ("0".data)) = 120 ∧
    specClaimedMinutes (some ("0".data)) = 1 ∧
    effectiveMinutes (some ("0".data)) ≠ specClaimedMinutes (some ("0".data)) := by
  refine ⟨by decide, by decide, by decide⟩

/-- C3, amended: the effective duration equals `max(1, min(1440, v))`
where 120 is substituted for `v` when the parameter is absent,
non-numeric, or parses to zero. -/
theorem C3_duration_clamp (durationParam : Option Str) :
    effectiveMinutes durationParam = specAmendedMinutes durationParam := by
  unfold effectiveMinutes specAmendedMinutes
  rcases h : jsParseInt durationParam with _ | v
  · norm_num
  · by_cases hv : v = 0
    · simp [hv]
    · simp only [hv, if_false]
      norm_num

/-- C5, counterexample: for a string that contains `\`, `,`, `;` and a
newline but also a carriage return, escaping then unescaping does not
recover the original (the CR is stripped outright). -/
theorem C5_counterexample :
    ('\\' ∈ cexC5 ∧ ',' ∈ cexC5 ∧ ';' ∈ cexC5 ∧ '\n' ∈ cexC5) ∧
    icsUnescape (icsEscape cexC5) ≠ cexC5 := by
  refine ⟨by decide, by decide⟩

/-- C5, amended: for every string containing `\`, `,`, `;` and newlines
but no carriage return, escaping then unescaping recovers the original
text. -/
theorem C5_escape_roundtrip (l : Str)
    (_h1 : '\\' ∈ l) (_h2 : ',' ∈ l) (_h3 : ';' ∈ l) (_h4 : '\n' ∈ l)
    (h5 : '\r' ∉ l) :
    icsUnescape (icsEscape l) = l :=
  icsUnescape_icsEscape l h5

theorem C5_escape_roundtrip_witness :
    ('\\' ∈ wC5 ∧ ',' ∈ wC5 ∧ ';' ∈ wC5 ∧ '\n' ∈ wC5 ∧ '\r' ∉ wC5) ∧
    icsUnescape (icsEscape wC5) = wC5 :=
  ⟨by decide,
   C5_escape_roundtrip wC5 (by decide) (by decide) (by decide) (by decide) (by decide)⟩

/-! ### C2: fetch strategies -/

/-- C2, counterexample (negation of the claim): no configuration makes the
gateway issue a request carrying a browser-like `User-Agent` header — the
request built on every cache miss always carries only the JSON
content-type header of the bypass-service control call. -/
theorem C2_counterexample :
    ¬ ∃ (cfg : Str) (sess : Option Str) (url : Str),
        (fetchRequestFor cfg sess url).headers.any
          (fun h => h.1 == "User-Agent".data) = true := by
  rintro ⟨cfg, sess, url, h⟩
  have h2 : ([("Content-Type".data, "application/json".data)] : List (Str × Str)).any
      (fun h => h.1 == "User-Agent".data) = true := h
  exact absurd h2 (by decide)

/-- C2, amended: the gateway has exactly one fetch strategy — for every
configured base URL it submits the page URL to the bypass service's `/v1`
control API as a `request.get` command, with only a JSON content-type
header (no browser-like headers), regardless of configuration. -/
theorem C2_single_strategy (cfg : Str) (sess : Option Str) (url : Str) :
    (fetchRequestFor cfg sess url).target = cfg ++ "/v1".data ∧
    (fetchRequestFor cfg sess url).method = "POST".data ∧
    (fetchRequestFor cfg sess url).bodyCmd = "request.get".data ∧
    (fetchRequestFor cfg sess url).bodyUrl = url ∧
    ∀ h ∈ (fetchRequestFor cfg sess url).headers, h.1 = "Content-Type".data := by
  refine ⟨rfl, rfl, rfl, rfl, ?_⟩
  intro h hh
  have : h = ("Content-Type".data, "application/json".data) := by
    simpa [fetchRequestFor] using hh
  rw [this]

theorem C2_single_strategy_witness :
    (("Content-Type".data, "application/json".data) : Str × Str) ∈
        (fetchRequestFor ("http://flaresolverr:8191".data) none ("https://www.hltv.org".data)).headers ∧
    (("Content-Type".data, "application/json".data) : Str × Str).1 = "Content-Type".data :=
  ⟨by decide,
   (C2_single_strategy ("http://flaresolverr:8191".data) none ("https://www.hltv.org".data)).2.2.2.2
     _ (by decide)⟩

/-! ### C8: rows without a parseable timestamp -/

/-- C8, amended: a row produces no record exactly when its `data-unix`
attribute is missing or empty (`if (!unixStr) return`); a row with a
non-empty but non-numeric attribute value is still emitted — with an
invalid (`NaN`) start instant. -/
theorem C8_row_skip_iff (currentEventName teamLabel : Str) (row : TeamRow) :
    rowEvent currentEventName teamLabel row = none ↔
      (row.dataUnix = none ∨ row.dataUnix = some []) := by
  constructor
  · intro h
    rcases hd : row.dataUnix with _ | u
    · exact Or.inl rfl
    · by_cases hu : u = []
      · exact Or.inr (by rw [hu])
      · simp [rowEvent, hd, hu] at h
  · intro h
    rcases h with h | h <;> simp [rowEvent, h]

/-- C8, counterexample: a row with `data-unix="abc"` (present but not a
parseable epoch value) is not dropped — `parseMatches` emits a record for
it, and that record's start instant is invalid (`NaN`). -/
theorem C8_counterexample :
    (rowEvent [] [] cexRowC8).isSome = true ∧
    (rowEvent [] [] cexRowC8).map (fun e => e.start) = some none := by
  refine ⟨by decide, by decide⟩

theorem C8_row_skip_iff_witness :
    rowEvent [] [] { dataUnix := none, team1Text := [], team2Text := [],
                     matchHref := none } = none :=
  (C8_row_skip_iff [] []
    { dataUnix := none, team1Text := [], team2Text := [], matchHref := none }).mpr
    (Or.inl rfl)

/-- C1, counterexample: the end-to-end scenario yields the uid
`hltv-match-12345`, not the claimed `match-12345` (and the fallback
scheme is likewise `hltv-<epochMillis>`, not `match-<epochMillis>`). -/
theorem C1_counterexample :
    (parseMatches scenarioDoc []).map (fun e => e.uid) = ["hltv-match-12345".data] ∧
    "hltv-match-12345".data ≠ "match-12345".data := by
  refine ⟨by decide, by decide⟩

/-- C1, amended: every emitted record whose detail href contains a numeric
`/matches/<id>/` segment gets uid `hltv-match-<id>`; every record without
a resolvable identifier gets the time-derived fallback
`hltv-<epochMillis>` of its start instant (the text `NaN` standing in for
an invalid one). -/
theorem C1_uid_scheme (currentEventName teamLabel : Str) (row : TeamRow)
    (e : MatchEvent) (h : rowEvent currentEventName teamLabel row = some e) :
    (∀ d, hrefMatchId row.matchHref = some d → e.uid = "hltv-match-".data ++ d) ∧
    (hrefMatchId row.matchHref = none → e.uid = "hltv-".data ++ jsNumRepr e.start) := by
  rcases hd : row.dataUnix with _ | u
  · simp [rowEvent, hd] at h
  · by_cases hu : u = []
    · simp [rowEvent, hd, hu] at h
    · rw [rowEvent, hd] at h
      simp only [hu, if_false, Option.some.injEq] at h
      subst h
      constructor
      · intro d hid
        simp only [hid]
      · intro hid
        simp only [hid]

theorem C1_uid_scheme_witness :
    hrefMatchId scenarioRow.matchHref = some ("12345".data) ∧
    scenarioEvent.uid = "hltv-match-".data ++ "12345".data :=
  ⟨by decide,
   (C1_uid_scheme ("Major Final".data) [] scenarioRow scenarioEvent (by decide)).1
     ("12345".data) (by decide)⟩

/-! ### Gateway lemmas shared by C7 and C10 -/

theorem fetchWithCache_hit {α : Type} (cfg : Str) (sess : Option Str)
    (respond : FetchRequest → BypassResponse α) (cache : Cache α) (now : Int)
    (url : Str) (e : CacheEntry α) (h : freshHit cache now url = some e) :
    fetchWithCache cfg sess respond cache now url = Except.ok (e.body, cache) := by
  unfold fetchWithCache
  rw [h]

theorem fetchWithCache_miss_failed {α : Type} (cfg : Str) (sess : Option Str)
    (respond : FetchRequest → BypassResponse α) (cache : Cache α) (now : Int)
    (url : Str) (h1 : freshHit cache now url = none)
    (h2 : bypassFailed (respond (fetchRequestFor cfg sess url)) = true) :
    fetchWithCache cfg sess respond cache now url =
      Except.error (fetchErrorMsg (respond (fetchRequestFor cfg sess url))) := by
  unfold fetchWithCache
  rw [h1]
  set res := respond (fetchRequestFor cfg sess url) with hres
  rcases hok : res.resOk with _ | _
  · simp [hok]
  · unfold bypassFailed at h2
    rw [hok] at h2
    simp only [Bool.not_true, Bool.false_or, bne_iff_ne, ne_eq] at h2
    simp only [hok, Bool.not_true, Bool.false_eq_true, if_false]
    rw [if_pos h2]

theorem fetchWithCache_miss_success {α : Type} (cfg : Str) (sess : Option Str)
    (respond : FetchRequest → BypassResponse α) (cache : Cache α) (now : Int)
    (url : Str) (h1 : freshHit cache now url = none)
    (h2 : bypassFailed (respond (fetchRequestFor cfg sess url)) = false) :
    fetchWithCache cfg sess respond cache now url =
      Except.ok ((respond (fetchRequestFor cfg sess url)).solutionResponse,
        cacheSet cache url
          { ts := now
            body := (respond (fetchRequestFor cfg sess url)).solutionResponse }) := by
  unfold fetchWithCache
  rw [h1]
  set res := respond (fetchRequestFor cfg sess url) with hres
  unfold bypassFailed at h2
  simp only [Bool.or_eq_false_iff, Bool.not_eq_false', bne_eq_false_iff_eq] at h2
  simp [h2.1, h2.2]

/-! ### C10: cache lookups do not mutate the cache -/

/-- C10: a fresh hit returns the stored body with the cache unchanged (no
timestamp refresh); on a miss (absent or stale entry) the cache is written
only by a successful fetch, via a put of the fetched body at the current
instant — a failing fetch leaves every entry in place. -/
theorem C10_cache_frame {α : Type} (cfg : Str) (sess : Option Str)
    (respond : FetchRequest → BypassResponse α) (cache : Cache α) (now : Int)
    (url : Str) :
    (∀ e, freshHit cache now url = some e →
        fetchWithCache cfg sess respond cache now url = Except.ok (e.body, cache)) ∧
    (freshHit cache now url = none →
      (bypassFailed (respond (fetchRequestFor cfg sess url)) = true →
          fetchWithCache cfg sess respond cache now url =
            Except.error (fetchErrorMsg (respond (fetchRequestFor cfg sess url)))) ∧
      (bypassFailed (respond (fetchRequestFor cfg sess url)) = false →
          fetchWithCache cfg sess respond cache now url =
            Except.ok ((respond (fetchRequestFor cfg sess url)).solutionResponse,
              cacheSet cache url
                { ts := now
                  body := (respond (fetchRequestFor cfg sess url)).solutionResponse }))) :=
  ⟨fun e he => fetchWithCache_hit cfg sess respond cache now url e he,
   fun h1 =>
     ⟨fun h2 => fetchWithCache_miss_failed cfg sess respond cache now url h1 h2,
      fun h2 => fetchWithCache_miss_success cfg sess respond cache now url h1 h2⟩⟩

theorem C10_cache_frame_witness :
    freshHit cacheW 1000 ("u".data) = some { ts := 0, body := 42 } ∧
    fetchWithCache ("http://flaresolverr:8191".data) none respondOkW cacheW 1000 ("u".data) =
      Except.ok (42, cacheW) :=
  ⟨by decide,
   (C10_cache_frame ("http://flaresolverr:8191".data) none respondOkW cacheW 1000
      ("u".data)).1 { ts := 0, body := 42 } (by decide)⟩

/-! ### C7: failing fetches leave the cache untouched and answer 502 -/

/-- C7: when the bypass endpoint answers a non-success HTTP status or a
non-`"ok"` envelope, `fetchWithCache` throws an error whose message
includes the service's status text (HTTP failure) or envelope message
(envelope failure), the cache gains no entry for the URL (the handler's
cache state is unchanged), and the feed route answers 502 with a JSON
error body carrying that message. -/
theorem C7_fetch_failure (cfg : Str) (sess : Option Str)
    (respond : FetchRequest → BypassResponse Doc) (cache : Cache Doc)
    (id : Str) (slug : Option Str) (durationParam : Option Str) (now : Int)
    (h1 : freshHit cache now (teamUrl id (routeSlug slug)) = none)
    (h2 : bypassFailed
        (respond (fetchRequestFor cfg sess (teamUrl id (routeSlug slug)))) = true) :
    fetchWithCache cfg sess respond cache now (teamUrl id (routeSlug slug)) =
      Except.error (fetchErrorMsg
        (respond (fetchRequestFor cfg sess (teamUrl id (routeSlug slug))))) ∧
    handleTeamFeed cfg sess respond cache id slug durationParam now =
      (502,
       FeedBody.json (fetchErrorMsg
         (respond (fetchRequestFor cfg sess (teamUrl id (routeSlug slug))))),
       cache) ∧
    ((respond (fetchRequestFor cfg sess (teamUrl id (routeSlug slug)))).resOk = false →
        List.IsSuffix
          (respond (fetchRequestFor cfg sess (teamUrl id (routeSlug slug)))).statusText
          (fetchErrorMsg
            (respond (fetchRequestFor cfg sess (teamUrl id (routeSlug slug)))))) ∧
    ((respond (fetchRequestFor cfg sess (teamUrl id (routeSlug slug)))).resOk = true →
        List.IsSuffix
          (jsMessageOf
            (respond (fetchRequestFor cfg sess (teamUrl id (routeSlug slug)))).dataMessage)
          (fetchErrorMsg
            (respond (fetchRequestFor cfg sess (teamUrl id (routeSlug slug)))))) := by
  set url := teamUrl id (routeSlug slug) with hurl
  have hfe := fetchWithCache_miss_failed cfg sess respond cache now url h1 h2
  refine ⟨hfe, ?_, ?_, ?_⟩
  · unfold handleTeamFeed
    simp only [← hurl, hfe]
  · intro hok
    unfold fetchErrorMsg
    rw [hok]
    simp only [Bool.not_false, if_true]
    exact ⟨"FlareSolverr request failed: ".data ++
      natRepr (respond (fetchRequestFor cfg sess url)).status ++ [' '], by simp⟩
  · intro hok
    unfold fetchErrorMsg
    rw [hok]
    simp only [Bool.not_true, Bool.false_eq_true, if_false]
    exact ⟨"FlareSolverr error: ".data, rfl⟩

theorem C7_fetch_failure_witness :
    handleTeamFeed ("http://flaresolverr:8191".data) none respondFailW [] ("6667".data)
        (some ("faze".data)) none 0 =
      (502,
       FeedBody.json (fetchErrorMsg
         (respondFailW (fetchRequestFor ("http://flaresolverr:8191".data) none
           (teamUrl ("6667".data) (routeSlug (some ("faze".data))))))),
       []) :=
  (C7_fetch_failure ("http://flaresolverr:8191".data) none respondFailW [] ("6667".data)
    (some ("faze".data)) none 0 (by decide) (by decide)).2.1

/-! ### C4: drop rule and sort -/

theorem mem_insertByStart (x a : FeedEvent) (l : List FeedEvent) :
    a ∈ insertByStart x l ↔ a = x ∨ a ∈ l := by
  induction l with
  | nil => simp [insertByStart]
  | cons y t ih =>
    by_cases h : startKey y ≤ startKey x
    · simp only [insertByStart, if_pos h, List.mem_cons, ih]
      tauto
    · simp only [insertByStart, if_neg h, List.mem_cons]

theorem sorted_insertByStart (x : FeedEvent) (l : List FeedEvent)
    (h : l.Pairwise (fun a b => startKey a ≤ startKey b)) :
    (insertByStart x l).Pairwise (fun a b => startKey a ≤ startKey b) := by
  induction l with
  | nil => simp [insertByStart]
  | cons y t ih =>
    rcases List.pairwise_cons.mp h with ⟨hy, ht⟩
    by_cases hle : startKey y ≤ startKey x
    · rw [insertByStart, if_pos hle]
      refine List.pairwise_cons.mpr ⟨?_, ih ht⟩
      intro z hz
      rcases (mem_insertByStart x z t).mp hz with rfl | hz2
      · exact hle
      · exact hy z hz2
    · rw [insertByStart, if_neg hle]
      refine List.pairwise_cons.mpr ⟨?_, h⟩
      intro z hz
      rcases List.mem_cons.mp hz with rfl | hz2
      · exact le_of_lt (lt_of_not_le hle)
      · exact le_trans (le_of_lt (lt_of_not_le hle)) (hy z hz2)

theorem mem_foldl_insertByStart (a : FeedEvent) (l acc : List FeedEvent) :
    a ∈ l.foldl (fun acc x => insertByStart x acc) acc ↔ a ∈ acc ∨ a ∈ l := by
  induction l generalizing acc with
  | nil => simp
  | cons x t ih =>
    rw [List.foldl_cons, ih, mem_insertByStart]
    simp [List.mem_cons]
    tauto

theorem mem_sortByStart (a : FeedEvent) (l : List FeedEvent) :
    a ∈ sortByStart l ↔ a ∈ l := by
  unfold sortByStart
  rw [mem_foldl_insertByStart]
  simp

theorem sorted_foldl_insertByStart (l acc : List FeedEvent)
    (h : acc.Pairwise (fun a b => startKey a ≤ startKey b)) :
    (l.foldl (fun acc x => insertByStart x acc) acc).Pairwise
      (fun a b => startKey a ≤ startKey b) := by
  induction l generalizing acc with
  | nil => exact h
  | cons x t ih =>
    rw [List.foldl_cons]
    exact ih _ (sorted_insertByStart x acc h)

theorem sorted_sortByStart (l : List FeedEvent) :
    (sortByStart l).Pairwise (fun a b => startKey a ≤ startKey b) :=
  sorted_foldl_insertByStart l [] (by simp)

/-- C4: an event (an extracted record with its computed end) appears in
the final feed iff its end instant is at least five minutes before `now`;
an event whose end is invalid never appears; and the feed is sorted by
start ascending. -/
theorem C4_drop_and_sort (records : List MatchEvent) (minutes now : Int) :
    (∀ (ev : FeedEvent) (t : Int), ev.endTime = some t →
        (ev ∈ feedEvents records minutes now ↔
          (ev ∈ withEnd records minutes ∧ now - 5 * 60 * 1000 ≤ t))) ∧
    (∀ ev : FeedEvent, ev.endTime = none → ev ∉ feedEvents records minutes now) ∧
    (feedEvents records minutes now).Pairwise
      (fun a b => startKey a ≤ startKey b) := by
  refine ⟨?_, ?_, sorted_sortByStart _⟩
  · intro ev t ht
    unfold feedEvents
    rw [mem_sortByStart]
    unfold keepRecent
    rw [List.mem_filter]
    simp [jsGeOpt, ht]
  · intro ev ht hm
    unfold feedEvents at hm
    rw [mem_sortByStart] at hm
    unfold keepRecent at hm
    rw [List.mem_filter] at hm
    simp [jsGeOpt, ht] at hm

theorem C4_drop_and_sort_witness : evW ∈ feedEvents recW 120 0 :=
  ((C4_drop_and_sort recW 120 0).1 evW (1000 + 120 * 60 * 1000) (by decide)).mpr
    ⟨by decide, by decide⟩

/-- C6, counterexample: `buildICS` does not fold the `NAME` and
`X-WR-CALNAME` lines — with a 100-character calendar name the emitted
document contains physical lines of 105 and 113 characters, so the claim
that no physical line exceeds 75 characters fails. -/
theorem C6_counterexample :
    ((splitCRLF (buildICS [] longCalName 0)).map (fun l => l.length)) =
      [15, 11, 23, 18, 14, 105, 113, 13] ∧
    (splitCRLF (buildICS [] longCalName 0)).any
      (fun l => decide (75 < l.length)) = true := by
  refine ⟨by decide, by decide⟩

/-- C6, amended: every content line passed through `foldIcsLine` (the
`UID`, `SUMMARY`, `DESCRIPTION`, `URL` and alarm `DESCRIPTION` lines) is
split at the 75-character boundary into pieces of at most 75 characters,
each continuation piece carries the inserted leading space, the pieces
are joined by CRLF, and removing the inserted space from each continuation
reconstructs the original line; the `NAME` and `X-WR-CALNAME` lines are
emitted without folding and may exceed 75 characters. -/
theorem C6_folding (line : Str) :
    (∀ p ∈ foldParts line, p.length ≤ 75) ∧
    (∀ p ∈ (foldParts line).tail, p.head? = some ' ') ∧
    unfoldParts (foldParts line) = line ∧
    foldIcsLine line = joinCRLF (foldParts line) :=
  ⟨foldParts_length_le line, foldParts_tail_head line,
   unfoldParts_foldParts line, rfl⟩

theorem C6_folding_witness :
    longLineW.take 75 ∈ foldParts longLineW ∧ (longLineW.take 75).length ≤ 75 := by
  have hmem : longLineW.take 75 ∈ foldParts longLineW := by
    rw [foldParts_long longLineW (by decide)]
    exact List.mem_cons_self _ _
  exact ⟨hmem, (C6_folding longLineW).1 _ hmem⟩

/-! ### C9: summary assembly -/

theorem head?_dropWhile_false (p : Char → Bool) (l : Str) :
    ∀ a, (l.dropWhile p).head? = some a → p a = false := by
  induction l with
  | nil => intro a h; simp [List.dropWhile] at h
  | cons c t ih =>
    intro a h
    rw [List.dropWhile_cons] at h
    by_cases hc : p c = true
    · rw [if_pos hc] at h
      exact ih a h
    · rw [if_neg hc] at h
      have : a = c := by simpa using h.symm
      subst this
      simpa using hc

theorem getLast?_dropWhile_of_ne_nil (p : Char → Bool) (l : Str)
    (h : l.dropWhile p ≠ []) : (l.dropWhile p).getLast? = l.getLast? := by
  induction l with
  | nil => simp at h
  | cons c t ih =>
    rw [List.dropWhile_cons]
    by_cases hc : p c = true
    · rw [List.dropWhile_cons, if_pos hc] at h
      rw [if_pos hc, ih h]
      have ht : t ≠ [] := by
        intro he
        rw [he] at h
        simp at h
      rcases t with _ | ⟨e, t'⟩
      · exact absurd rfl ht
      · exact (List.getLast?_cons_cons).symm
    · rw [if_neg hc]

theorem jsTrim_getLast_not_ws (l : Str) :
    ∀ c, (jsTrim l).getLast? = some c → isWs c = false := by
  intro c hc
  unfold jsTrim at hc
  rw [List.getLast?_reverse] at hc
  exact head?_dropWhile_false isWs _ c hc

theorem jsTrim_head_not_ws (l : Str) :
    ∀ c, (jsTrim l).head? = some c → isWs c = false := by
  intro c hc
  unfold jsTrim at hc
  rw [List.head?_reverse] at hc
  have hne : (l.dropWhile isWs).reverse.dropWhile isWs ≠ [] := by
    intro he
    rw [he] at hc
    simp at hc
  rw [getLast?_dropWhile_of_ne_nil _ _ hne, List.getLast?_reverse] at hc
  exact head?_dropWhile_false isWs l c hc

theorem dropWhile_eq_self_of_head (p : Char → Bool) (l : Str)
    (h : ∀ a, l.head? = some a → p a = false) : l.dropWhile p = l := by
  rcases l with _ | ⟨c, t⟩
  · rfl
  · have := h c rfl
    rw [List.dropWhile_cons]
    simp [this]

theorem jsTrim_idem (l : Str) : jsTrim (jsTrim l) = jsTrim l := by
  have h1 : (jsTrim l).dropWhile isWs = jsTrim l :=
    dropWhile_eq_self_of_head _ _ (jsTrim_head_not_ws l)
  show (((jsTrim l).dropWhile isWs).reverse.dropWhile isWs).reverse = jsTrim l
  rw [h1]
  have h2 : (jsTrim l).reverse.dropWhile isWs = (jsTrim l).reverse := by
    apply dropWhile_eq_self_of_head
    intro a ha
    rw [List.head?_reverse] at ha
    exact jsTrim_getLast_not_ws l a ha
  rw [h2, List.reverse_reverse]

theorem vsTail_cons_ws (c : Char) (l : Str) (hc : isWs c = true) :
    vsTail (c :: l) = vsTail l := by
  unfold vsTail
  rw [List.dropWhile_cons, if_pos hc]

theorem matchVsEnd_cons_ws (c : Char) (l : Str) (hc : isWs c = true) :
    matchVsEnd (c :: l) = vsTail (c :: l) := by
  unfold matchVsEnd
  rw [List.takeWhile_cons, if_pos hc]
  simp

theorem matchVsEnd_cons_not_ws (c : Char) (l : Str) (hc : isWs c = false) :
    matchVsEnd (c :: l) = false := by
  unfold matchVsEnd
  rw [List.takeWhile_cons, if_neg (by simp [hc])]
  simp

theorem all_ws_append_sep (x : Str) : ((x ++ vsSep).all isWs) = false := by
  rw [List.all_append]
  have h : vsSep.all isWs = false := by decide
  rw [h, Bool.and_false]

theorem vsTail_append_sep (r : Str) (hne : r ≠ [])
    (hlast : ∀ c, r.getLast? = some c → isWs c = false) :
    vsTail (r ++ vsSep) = false := by
  induction r with
  | nil => exact absurd rfl hne
  | cons d r' ih =>
    by_cases hd : isWs d = true
    · rcases r' with _ | ⟨e, r''⟩
      · exact absurd (hlast d (by simp)) (by simp [hd])
      · rw [List.cons_append, vsTail_cons_ws d _ hd]
        exact ih (by simp)
          (fun c hc => hlast c (by rw [List.getLast?_cons_cons]; exact hc))
    · have hd' : isWs d = false := by simpa using hd
      rw [List.cons_append]
      unfold vsTail
      rw [List.dropWhile_cons, if_neg (by simp [hd'])]
      rcases r' with _ | ⟨e, r''⟩
      · simp [vsSep]
      · rw [List.cons_append]
        simp only [vsTail] at *
        simp [all_ws_append_sep]
        intro _ _ _ _
        exact ⟨'v', by decide, by decide⟩

theorem stripVsEnd_append_sep (t : Str)
    (hlast : ∀ c, t.getLast? = some c → isWs c = false) :
    stripVsEnd (t ++ vsSep) = t := by
  induction t with
  | nil => decide
  | cons c t' ih =>
    rw [List.cons_append]
    have hm : matchVsEnd (c :: (t' ++ vsSep)) = false := by
      by_cases hc : isWs c = true
      · rw [matchVsEnd_cons_ws c _ hc, vsTail_cons_ws c _ hc]
        rcases t' with _ | ⟨e, t''⟩
        · exact absurd (hlast c (by simp)) (by simp [hc])
        · exact vsTail_append_sep (e :: t'') (by simp)
            (fun x hx => hlast x (by rw [List.getLast?_cons_cons]; exact hx))
      · exact matchVsEnd_cons_not_ws c _ (by simpa using hc)
    have hlast' : ∀ x, t'.getLast? = some x → isWs x = false := by
      intro x hx
      cases t' with
      | nil => simp at hx
      | cons e t'' =>
        exact hlast x (by rw [List.getLast?_cons_cons]; exact hx)
    simp [stripVsEnd, hm, ih hlast']

/-- C9, amended: when the second team slot is empty the separator
collapses — for any row whose trimmed second team name is empty (and the
empty team label the route passes), the summary is exactly the trimmed
first team name followed by the event suffix, with no trailing `vs`.
When the *first* slot is the empty one a leading `vs` remains (the
regex only strips a trailing separator); see the counterexample. -/
theorem C9_summary_collapse (currentEventName : Str) (row : TeamRow)
    (e : MatchEvent) (h2 : jsTrim row.team2Text = [])
    (h : rowEvent currentEventName [] row = some e) :
    e.summary = jsTrim row.team1Text ++
      (if currentEventName = [] then [] else " — ".data ++ currentEventName) := by
  rcases hd : row.dataUnix with _ | u
  · simp [rowEvent, hd] at h
  · by_cases hu : u = []
    · simp [rowEvent, hd, hu] at h
    · rw [rowEvent, hd] at h
      simp only [hu, if_false, Option.some.injEq] at h
      subst h
      show jsTrim (stripVsEnd
          ((jsOrStr (jsTrim row.team1Text) []) ++ " vs ".data ++ jsTrim row.team2Text)) ++
          (if currentEventName = [] then [] else " — ".data ++ currentEventName) = _
      rw [h2, List.append_nil]
      have hj : jsOrStr (jsTrim row.team1Text) [] = jsTrim row.team1Text := by
        unfold jsOrStr
        by_cases ht : jsTrim row.team1Text = []
        · rw [if_pos ht, ht]
        · rw [if_neg ht]
      rw [hj, show " vs ".data = vsSep from rfl,
        stripVsEnd_append_sep _ (jsTrim_getLast_not_ws row.team1Text),
        jsTrim_idem]

/-- C9, counterexample: a row with an empty first team and second team
`Beta` (exactly one empty slot) yields the summary `"vs Beta"` — a
dangling *leading* `vs` — because the replace only targets a trailing
`\s+vs\s+` and the subsequent `trim` merely removes the leading space. -/
theorem C9_counterexample :
    (parseMatches [[MatchGroup.tbody [cexRowC9]]] []).map
        (fun e => (e.team1, e.team2, e.summary)) =
      [(([] : Str), "Beta".data, "vs Beta".data)] ∧
    ("vs Beta".data).take 3 = "vs ".data := by
  refine ⟨by decide, by decide⟩

theorem C9_summary_collapse_witness :
    jsTrim wRowC9.team2Text = [] ∧
    wEventC9.summary = jsTrim wRowC9.team1Text ++
      (if "EV".data = ([] : Str) then [] else " — ".data ++ "EV".data) :=
  ⟨by decide, C9_summary_collapse ("EV".data) wRowC9 wEventC9 (by decide) (by decide)⟩

end Hltvical
